import Mathlib

/-!
Verification development for the HubSpot invoicing Lambda.

The definitions in this file are a shallow embedding of the JavaScript
source of the repository:

* `normalizeStateName`, `countTerritoriesExcludingHomeState`,
  `calculateDistributorPrice` embed `src/pricing/distributor.js`
  (the company-membership variant);
* `parseMembershipLevelPrice`, `getManufacturerProductId`,
  `calculateManufacturerPrice` embed `src/pricing/manufacturer.js`;
* `calculateServiceProviderPrice` embeds `src/pricing/serviceProvider.js`;
* `calculateIndividualPrice` embeds `src/pricing/individual.js`;
* `findExistingOpenInvoice` and `createInvoice` embed
  `src/hubspot/invoices.js`;
* `stepMember`, `processLoop`, `runHandler` embed the per-member pipeline
  and run bookkeeping of `exports.handler` in `src/index.js`
  (the state-tracking variant).

JavaScript numbers are modelled as `ℚ`, missing/`undefined` values as
`Option`, thrown exceptions as `Except String`, and every external call
(CRM, S3, PDF renderer, clock) as an oracle function supplied in an
environment record, with the calls that write to the outside world
recorded in an explicit effect trace.
-/

namespace Invoicing

/-- The static full-name → 2-letter-code table of `normalizeStateName`
(50 US states and 13 Canadian provinces/territories). -/
def stateMap : List (String × String) :=
  [("ALABAMA", "AL"), ("ALASKA", "AK"), ("ARIZONA", "AZ"), ("ARKANSAS", "AR"),
   ("CALIFORNIA", "CA"), ("COLORADO", "CO"), ("CONNECTICUT", "CT"), ("DELAWARE", "DE"),
   ("FLORIDA", "FL"), ("GEORGIA", "GA"), ("HAWAII", "HI"), ("IDAHO", "ID"),
   ("ILLINOIS", "IL"), ("INDIANA", "IN"), ("IOWA", "IA"), ("KANSAS", "KS"),
   ("KENTUCKY", "KY"), ("LOUISIANA", "LA"), ("MAINE", "ME"), ("MARYLAND", "MD"),
   ("MASSACHUSETTS", "MA"), ("MICHIGAN", "MI"), ("MINNESOTA", "MN"), ("MISSISSIPPI", "MS"),
   ("MISSOURI", "MO"), ("MONTANA", "MT"), ("NEBRASKA", "NE"), ("NEVADA", "NV"),
   ("NEW HAMPSHIRE", "NH"), ("NEW JERSEY", "NJ"), ("NEW MEXICO", "NM"), ("NEW YORK", "NY"),
   ("NORTH CAROLINA", "NC"), ("NORTH DAKOTA", "ND"), ("OHIO", "OH"), ("OKLAHOMA", "OK"),
   ("OREGON", "OR"), ("PENNSYLVANIA", "PA"), ("RHODE ISLAND", "RI"), ("SOUTH CAROLINA", "SC"),
   ("SOUTH DAKOTA", "SD"), ("TENNESSEE", "TN"), ("TEXAS", "TX"), ("UTAH", "UT"),
   ("VERMONT", "VT"), ("VIRGINIA", "VA"), ("WASHINGTON", "WA"), ("WEST VIRGINIA", "WV"),
   ("WISCONSIN", "WI"), ("WYOMING", "WY"),
   ("ALBERTA", "AB"), ("BRITISH COLUMBIA", "BC"), ("MANITOBA", "MB"), ("NEW BRUNSWICK", "NB"),
   ("NEWFOUNDLAND AND LABRADOR", "NL"), ("NORTHWEST TERRITORIES", "NT"), ("NOVA SCOTIA", "NS"),
   ("NUNAVUT", "NU"), ("ONTARIO", "ON"), ("PRINCE EDWARD ISLAND", "PE"), ("QUEBEC", "QC"),
   ("SASKATCHEWAN", "SK"), ("YUKON", "YT")]

/-- JavaScript `trim()` on a character list: leading and trailing
whitespace removed (the inputs of this code base are ASCII, where
`Char.isWhitespace` agrees with the JavaScript whitespace set). -/
def trimChars (cs : List Char) : List Char :=
  ((cs.dropWhile Char.isWhitespace).reverse.dropWhile Char.isWhitespace).reverse

/-- JavaScript `trim()`. -/
def jsTrim (s : String) : String := ⟨trimChars s.data⟩

/-- JavaScript `toUpperCase()` (ASCII inputs). -/
def jsToUpper (s : String) : String := ⟨s.data.map Char.toUpper⟩

/-- `split(';')` on a character list; the accumulator holds the current
field reversed. -/
def splitSemiAux : List Char → List Char → List String
  | [], acc => [⟨acc.reverse⟩]
  | c :: rest, acc =>
    if c = ';' then ⟨acc.reverse⟩ :: splitSemiAux rest []
    else splitSemiAux rest (c :: acc)

/-- JavaScript `split(';')`: the fields between semicolons, empty fields
included (the empty string yields `[""]`). -/
def jsSplitSemi (s : String) : List String := splitSemiAux s.data []

/-- `normalizeStateName` from `src/pricing/distributor.js`:
empty input yields the empty string; otherwise the input is trimmed and
upper-cased, a 2-letter key present in the table is returned as is, and the
result is the table entry for the upper-cased name, falling back to the
upper-cased name itself. -/
def normalizeStateName (stateName : String) : String :=
  if stateName = "" then ""
  else
    let stateNameUpper := jsToUpper (jsTrim stateName)
    if stateNameUpper.length = 2 && (stateMap.lookup stateNameUpper).isSome then
      stateNameUpper
    else
      (stateMap.lookup stateNameUpper).getD stateNameUpper

/-- `territoryString.split(';').filter(Boolean)`: the non-empty entries of a
semicolon-delimited list. -/
def splitEntries (s : String) : List String :=
  (jsSplitSemi s).filter (fun t => t != "")

/-- `countTerritoriesExcludingHomeState` from `src/pricing/distributor.js`. -/
def countTerritoriesExcludingHomeState (territoryString homeState : String) : Nat :=
  if territoryString = "" then 0
  else
    let territories := splitEntries territoryString
    let normalizedHomeState := normalizeStateName homeState
    if normalizedHomeState = "" then territories.length
    else
      (territories.filter
        (fun territory => normalizeStateName territory != normalizedHomeState)).length

/-- A line item as built by the pricing modules (`description` and
`billing_frequency` strings are kept only where a claim mentions them). -/
structure LineItem where
  name : String
  quantity : Nat
  price : ℚ
  description : String
  productId : Option String
deriving DecidableEq

/-- The `{ totalPrice, lineItems }` result shape returned by every pricing
module (the `details` object is logging-only and not modelled). -/
structure PriceResult where
  totalPrice : ℚ
  lineItems : List LineItem
deriving DecidableEq

/-- The company properties consumed by the pricing modules; a property that
is absent on the CRM record is the empty string for the `|| ''` reads and
`none` for the manufacturer level. -/
structure MemberProps where
  membershipType : Option String
  usStates : String
  canProvinces : String
  nonNATerritories : String
  state : String
  manufacturerLevel : Option String
deriving DecidableEq

/-- The three per-list counts summed into `totalBillableTerritories` in
`calculateDistributorPrice`. -/
def distributorBillableCount (props : MemberProps) : Nat :=
  countTerritoriesExcludingHomeState props.usStates props.state +
  countTerritoriesExcludingHomeState props.canProvinces props.state +
  countTerritoriesExcludingHomeState props.nonNATerritories props.state

/-- `calculateDistributorPrice` from `src/pricing/distributor.js`, with the
resolved `config.DISTRIBUTOR_BASE_FEE || 929` and
`config.DISTRIBUTOR_PER_TERRITORY_FEE || 70` values passed as arguments. -/
def calculateDistributorPrice (baseFee perTerritoryCharge : ℚ)
    (props : MemberProps) : PriceResult :=
  let totalBillableTerritories := distributorBillableCount props
  { totalPrice := baseFee + (totalBillableTerritories : ℚ) * perTerritoryCharge,
    lineItems :=
      [{ name := "Distributor Membership Base Fee", quantity := 1, price := baseFee,
         description := "Annual base fee for Distributor Membership.",
         productId := some "2463768667" },
       { name := "Home State Listing", quantity := 1, price := 0,
         description := "FREE listing in home state of " ++
           (if props.state = "" then "Not specified" else props.state),
         productId := some "25230586526" }] ++
      (if 0 < totalBillableTerritories then
        [{ name := "Additional Territory Listings",
           quantity := totalBillableTerritories, price := perTerritoryCharge,
           description := "Charge for territories (home state excluded).",
           productId := none }]
      else []) }

/-- Decimal value of a digit list. -/
def digitsVal (cs : List Char) : Nat :=
  cs.foldl (fun a c => a * 10 + (c.toNat - 48)) 0

/-- The exponent part of a JavaScript float literal: an optional sign and
digits after the `e`; if no digits follow, the exponent part is not part of
the parsed prefix and contributes a factor of 1. -/
def expVal (r : List Char) : ℤ :=
  let eneg : Bool := match r with
    | '-' :: _ => true
    | _ => false
  let r2 : List Char := match r with
    | '-' :: t => t
    | '+' :: t => t
    | t => t
  let ds := r2.takeWhile Char.isDigit
  if ds.isEmpty then 0
  else if eneg then -(digitsVal ds : ℤ) else (digitsVal ds : ℤ)

/-- The syntactic pieces of a JavaScript float literal prefix: sign,
integer digits, fraction digits (with their count), exponent, and whether a
valid prefix was found at all. -/
structure FloatParts where
  signNeg : Bool
  intVal : Nat
  fracVal : Nat
  fracLen : Nat
  exp : ℤ
  ok : Bool
deriving DecidableEq

/-- The scan performed by JavaScript `parseFloat`: skip leading whitespace,
then take the longest prefix of the form `sign digits [. digits]
[e sign digits]`, ignoring any trailing garbage; `ok = false` models `NaN`
(no digits at all). -/
def jsParseFloatParts (cs0 : List Char) : FloatParts :=
  let cs1 := cs0.dropWhile Char.isWhitespace
  let signNeg : Bool := match cs1 with
    | '-' :: _ => true
    | _ => false
  let cs2 : List Char := match cs1 with
    | '-' :: r => r
    | '+' :: r => r
    | r => r
  let intPart := cs2.takeWhile Char.isDigit
  let cs3 := cs2.dropWhile Char.isDigit
  let fracPart : List Char := match cs3 with
    | '.' :: r => r.takeWhile Char.isDigit
    | _ => []
  let cs4 : List Char := match cs3 with
    | '.' :: r => r.dropWhile Char.isDigit
    | r => r
  let e : ℤ := match cs4 with
    | 'e' :: r => expVal r
    | 'E' :: r => expVal r
    | _ => 0
  { signNeg := signNeg, intVal := digitsVal intPart, fracVal := digitsVal fracPart,
    fracLen := fracPart.length, exp := e,
    ok := !(intPart.isEmpty && fracPart.isEmpty) }

/-- JavaScript `parseFloat` as a rational: the value of the parsed prefix,
`none` for `NaN`.  The special `Infinity` literal is not representable in
`ℚ` and yields `none`; none of the membership-level labels involved in the
claims use it. -/
def jsParseFloatChars (cs0 : List Char) : Option ℚ :=
  let p := jsParseFloatParts cs0
  if p.ok then
    let magnitude : ℚ :=
      ((p.intVal : ℚ) + (p.fracVal : ℚ) / ((10 : ℚ) ^ p.fracLen)) * (10 : ℚ) ^ p.exp
    some (if p.signNeg then -magnitude else magnitude)
  else none

/-- `membershipLevelString.split('(')[0].trim().replace(/[$,]/g, '')` from
`parseMembershipLevelPrice`: the part before the first parenthesis, trimmed,
with every dollar sign and comma removed. -/
def levelClean (cs : List Char) : List Char :=
  (trimChars (cs.takeWhile (fun c => c != '('))).filter
    (fun c => c != '$' && c != ',')

/-- `parseMembershipLevelPrice` from `src/pricing/manufacturer.js`; `none`
models the `NaN` result of `parseFloat`. -/
def parseMembershipLevelPrice (s : String) : Option ℚ :=
  jsParseFloatChars (levelClean s.data)

/-- `getManufacturerProductId` from `src/pricing/manufacturer.js`. -/
def getManufacturerProductId (price : ℚ) : Option String :=
  if price = 1500 then some "2463329893"
  else if price = 3500 then some "2463329894"
  else if price = 5000 then some "2463329895"
  else if price = 7500 then some "2463312808"
  else if price = 10000 then some "2463329896"
  else none

/-- The `membershipLevelString === undefined || === null ||
String(membershipLevelString).trim() === ''` test guarding the
default-fee branch of `calculateManufacturerPrice` (and its warning log). -/
def isBlankLevel : Option String → Bool
  | none => true
  | some s => s.data.all Char.isWhitespace

/-- The result built by the default-fee branch of
`calculateManufacturerPrice`. -/
def manufacturerDefaultResult (defaultFee : ℚ) : PriceResult :=
  { totalPrice := defaultFee,
    lineItems :=
      [{ name := "Manufacturer Membership Fee", quantity := 1, price := defaultFee,
         description := "Default membership fee (membership level property missing).",
         productId := getManufacturerProductId defaultFee }] }

/-- `calculateManufacturerPrice` from `src/pricing/manufacturer.js`, with the
resolved `config.MANUFACTURER_DEFAULT_FEE || 1500` value passed as an
argument: a missing or blank membership level yields the default fee (with a
warning, see `isBlankLevel`); an unparsable or non-positive level throws. -/
def calculateManufacturerPrice (defaultFee : ℚ) (props : MemberProps) :
    Except String PriceResult :=
  match props.manufacturerLevel with
  | none => .ok (manufacturerDefaultResult defaultFee)
  | some lvl =>
    if lvl.data.all Char.isWhitespace then .ok (manufacturerDefaultResult defaultFee)
    else
      match parseMembershipLevelPrice lvl with
      | none => .error ("Invalid membership level price: " ++ lvl)
      | some p =>
        if p ≤ 0 then .error ("Invalid membership level price: " ++ lvl)
        else
          .ok { totalPrice := p,
                lineItems :=
                  [{ name := "Manufacturer Membership Fee", quantity := 1, price := p,
                     description := lvl, productId := getManufacturerProductId p }] }

/-- `calculateServiceProviderPrice` from `src/pricing/serviceProvider.js`:
`none` models an unset `config.SERVICE_PROVIDER_FLAT_FEE`, which throws. -/
def calculateServiceProviderPrice (flatRate : Option ℚ) : Except String PriceResult :=
  match flatRate with
  | none => .error "Service Provider flat fee is not configured."
  | some f =>
    .ok { totalPrice := f,
          lineItems :=
            [{ name := "Service Provider Membership Fee", quantity := 1, price := f,
               description := "Annual flat rate fee for Service Provider Membership.",
               productId := some "2853281631" }] }

/-- `calculateIndividualPrice` from `src/pricing/individual.js`, with the
resolved `config.INDIVIDUAL_MEMBERSHIP_FEE || 349` value as an argument. -/
def calculateIndividualPrice (flatRate : ℚ) : PriceResult :=
  { totalPrice := flatRate,
    lineItems :=
      [{ name := "Individual Membership Fee", quantity := 1, price := flatRate,
         description := "Annual fee for Individual Membership.",
         productId := some "2695542944" }] }

/-- The configuration values consumed by the pricing dispatch of
`exports.handler` (fees already resolved through their `||` defaults, and
the `MEMBERSHIP_TYPE_*` strings the `switch` compares against). -/
structure PricingConfig where
  distributorBaseFee : ℚ
  distributorPerTerritoryFee : ℚ
  manufacturerDefaultFee : ℚ
  serviceProviderFlatFee : Option ℚ
  individualFee : ℚ
  typeDistributor : String
  typeManufacturer : String
  typeServiceProvider : String
  enableReportEmail : Bool

/-- The `switch (member.type === 'Company' ? companyMembershipType :
'Individual')` scrutinee: companies use their membership-type property
(`none` when the property is missing, which hits the `default` case). -/
def switchKey (isCompany : Bool) (membershipType : Option String) : Option String :=
  if isCompany then membershipType else some "Individual"

/-- The pricing dispatch (step C of `exports.handler`): the `switch` over
the membership type, with the `default` case throwing
`Unknown membership type`. -/
def resolvePrice (cfg : PricingConfig) (isCompany : Bool) (props : MemberProps) :
    Except String PriceResult :=
  match switchKey isCompany props.membershipType with
  | none => .error "Unknown membership type: Individual"
  | some k =>
    if k = cfg.typeDistributor then
      .ok (calculateDistributorPrice cfg.distributorBaseFee cfg.distributorPerTerritoryFee props)
    else if k = cfg.typeManufacturer then
      calculateManufacturerPrice cfg.manufacturerDefaultFee props
    else if k = cfg.typeServiceProvider then
      calculateServiceProviderPrice cfg.serviceProviderFlatFee
    else if k = "Individual" then
      .ok (calculateIndividualPrice cfg.individualFee)
    else .error ("Unknown membership type: " ++ k)

/-- The sum of `quantity * unitPrice` over a list of line items. -/
def sumLineItems (items : List LineItem) : ℚ :=
  items.foldr (fun li acc => (li.quantity : ℚ) * li.price + acc) 0

/-- The invoice statuses that `findExistingOpenInvoice` treats as open. -/
def openStatuses : List String := ["SENT", "DRAFT", "PROCESSING", "OVERDUE"]

/-- `findExistingOpenInvoice` from `src/hubspot/invoices.js`.  The remote
`searchApi.doSearch` call (filtered to `openStatuses`, limit 1) is an
oracle: `.ok ids` is the id list of the search response and `.error e` a
thrown network/API error.  Without a company or contact id the check cannot
run and returns `none`; a search error is caught, logged, and also treated
as "no open invoice found". -/
def findExistingOpenInvoice (companyId contactId : Option String)
    (searchOutcome : Except String (List String)) : Option String :=
  if companyId.isNone && contactId.isNone then none
  else
    match searchOutcome with
    | .error _ => none
    | .ok results => results.head?

/-- A CRM write performed by `createInvoice`. -/
inductive CrmCall where
  | createObject (objectType : String) (properties : List (String × String))
  | assoc (fromType fromId toType toId : String) (assocTypeId : Nat)
  | createLineItem (productId : Option String) (name : String)
      (quantity : Nat) (price : ℚ)
  | updateObject (objectType objectId : String)
      (properties : List (String × String))
deriving DecidableEq

/-- The configuration consumed by `createInvoice`; the two association type
ids without an environment default are `Option` (their absence fails
`validateInvoiceConfig`). -/
structure InvoiceConfig where
  invoiceObjectTypeId : String
  assocInvoiceToContact : Option Nat
  assocInvoiceToCompany : Option Nat
  assocInvoiceToLineItem : Nat
  currency : String
  pdfLinkProperty : String

/-- The `invoiceData` argument of `createInvoice` as assembled by
`exports.handler` (step D); `keepDraft` is carried in the record, as in the
source. -/
structure InvoiceData where
  contactId : Option String
  companyId : Option String
  invoiceAmount : ℚ
  lineItems : List LineItem
  pdfLink : String
  keepDraft : Bool

/-- `validateInvoiceConfig` from `src/hubspot/invoices.js` (the object type
id and line-item association id have environment defaults and are modelled
as always present). -/
def validateInvoiceConfig (c : InvoiceConfig) : Except String Unit :=
  if c.assocInvoiceToContact.isNone || c.assocInvoiceToCompany.isNone then
    .error "Missing required configuration"
  else .ok ()

/-- `createInvoice` from `src/hubspot/invoices.js`, on its successful path:
step 1 creates a draft invoice (the PDF-link property only when `pdfLink`
is non-empty), step 2 adds the contact/company associations and creates and
associates one line item per entry (ids returned by the CRM are supplied by
the `invoiceId`/`lineItemId` oracles), and step 3 — after requiring a
contact and at least one line item — updates the invoice with the due date
and sets `hs_invoice_status` to `open`.  The `keepDraft` field of the data
is never consulted. -/
def createInvoice (c : InvoiceConfig) (d : InvoiceData) (invoiceId : String)
    (lineItemId : Nat → String) (dueDate : String) :
    Except String (List CrmCall) :=
  match validateInvoiceConfig c with
  | .error e => .error e
  | .ok _ =>
    let step1 : List CrmCall :=
      [.createObject c.invoiceObjectTypeId
        ([("hs_currency", c.currency)] ++
          (if d.pdfLink != "" then [(c.pdfLinkProperty, d.pdfLink)] else []))]
    let contactAssoc : List CrmCall :=
      match d.contactId with
      | some cid =>
        [.assoc c.invoiceObjectTypeId invoiceId "contacts" cid
          (c.assocInvoiceToContact.getD 0)]
      | none => []
    let companyAssoc : List CrmCall :=
      match d.companyId with
      | some coid =>
        [.assoc c.invoiceObjectTypeId invoiceId "companies" coid
          (c.assocInvoiceToCompany.getD 0)]
      | none => []
    let lineItemCalls : List CrmCall :=
      (d.lineItems.enum).flatMap (fun p =>
        [.createLineItem p.2.productId p.2.name p.2.quantity p.2.price,
         .assoc c.invoiceObjectTypeId invoiceId "line_items" (lineItemId p.1)
           c.assocInvoiceToLineItem])
    if d.contactId.isNone then
      .error "Cannot set invoice status to open - contact association is required"
    else if d.lineItems.isEmpty then
      .error "Cannot set invoice status to open - at least one line item association is required"
    else
      .ok (step1 ++ contactAssoc ++ companyAssoc ++ lineItemCalls ++
        [.updateObject c.invoiceObjectTypeId invoiceId
          [("hs_due_date", dueDate), ("hs_invoice_status", "open")]])

/-- The recognized fields of the Lambda trigger event; a JavaScript-falsy
limit (absent or `0`) is modelled as `0`. -/
structure RunFlags where
  dryRun : Bool
  pdfTestLimit : Nat
  fullTestLimit : Nat
  keepDraft : Bool
  clearState : Bool

/-- A member of the unified `allMembers` list of `exports.handler`:
`name` is `properties.name` for companies and `firstname lastname` for
individuals, already assembled; the `paidThroughDate` property is
logging/due-date data and not modelled. -/
structure Member where
  id : String
  isCompany : Bool
  name : String
  companyId : Option String
  props : MemberProps
deriving DecidableEq

/-- An externally visible write performed during a run.  `createInvoice`,
`updateDues`, `clearState` and `storeState` are CRM/S3 writes made through
`createInvoice`, `updateCompanyMembershipDues`, `clearProcessingState` and
`storeProcessingState`; `storePdf` and `storeReport` are the S3 writes of
`storePdfInvoice` and `generateAndStoreReport`; `emailReport` is
`sendReportEmail`.  Invoice-creation effects are tagged with the id of the
member being processed. -/
inductive Effect where
  | clearState (runDate : String)
  | createInvoice (memberId contactId : String) (amount : ℚ) (keepDraft : Bool)
  | updateDues (companyId : String) (amount : ℚ)
  | storePdf (key : String)
  | storeState (ids : List String) (runDate : String) (isComplete : Bool)
  | storeReport
  | emailReport
deriving DecidableEq

/-- The oracles for every external interaction of one run: the retrieved
member list, the persisted run state for the run date, and the outcome of
each remote call, keyed by member id (or contact id for the invoice
search).  `timeOk i` is the `context.getRemainingTimeInMillis() >= 30000`
check before processing the `i`-th member. -/
structure HandlerEnv where
  members : List Member
  loadedState : List String
  runDate : String
  primaryContact : String → Option String
  invoiceSearch : String → Except String (List String)
  createResult : String → Except String String
  paymentLink : String → Option String
  pdfRender : String → Except String Unit
  storePdfResult : String → Except String String
  pdfKey : String → String
  timeOk : Nat → Bool

/-- A row of `failedInvoices`. -/
structure FailedRow where
  name : String
  id : String
  reason : String
deriving DecidableEq

/-- A row of `processedInvoices`. -/
structure ProcessedRow where
  name : String
  id : String
  mtype : String
  invoiceId : String
  invoiceAmount : ℚ
  pdfLink : String
  paymentLink : Option String
deriving DecidableEq

/-- What processing one member appends to the run's accumulators. -/
structure MemberDelta where
  processed : List ProcessedRow
  failed : List FailedRow
  newIds : List String
  trace : List Effect

/-- The run accumulators threaded through the member loop:
`processedInvoices`, `failedInvoices`, `processedMemberIds` and the effect
trace. -/
structure RunAcc where
  processed : List ProcessedRow
  failed : List FailedRow
  stateIds : List String
  trace : List Effect

/-- The final response of a run: the effect trace plus the fields of the
returned body (`processed`/`failed` counts) and the report's row lists. -/
structure RunResult where
  trace : List Effect
  statusCode : Nat
  message : String
  processedCount : Nat
  failedCount : Nat
  processedRows : List ProcessedRow
  failedRows : List FailedRow
deriving DecidableEq

/-- `!isDryRun && !testLimit && !fullTestLimit`: state tracking is only
active for full production runs. -/
def fullModeOf (flags : RunFlags) : Bool :=
  !flags.dryRun && flags.pdfTestLimit == 0 && flags.fullTestLimit == 0

/-- `memberInfo.name || 'Unknown'` used by the catch-block failure rows. -/
def fallbackName (n : String) : String :=
  if n = "" then "Unknown" else n

/-- `member.type` as reported in the processed rows. -/
def memberTypeString (m : Member) : String :=
  if m.isCompany then "Company" else "Individual"

/-- Steps H–I of the per-member pipeline: the company dues update (skipped
in dry/PDF-test runs), the `processedInvoices` row, and — in full mode —
the `processedMemberIds` push with a state store every 10th success. -/
def stepFinish (flags : RunFlags) (runDate : String) (totalMembers : Nat)
    (stateIds : List String) (processedBefore : Nat) (m : Member)
    (pr : PriceResult) (invId pdfLink : String) (payLink : Option String)
    (tr1 : List Effect) : MemberDelta :=
  let duesTr : List Effect :=
    if m.isCompany && !(flags.dryRun || flags.pdfTestLimit != 0) then
      [Effect.updateDues (m.companyId.getD "") pr.totalPrice]
    else []
  let ids := stateIds ++ [m.id]
  let stateTr : List Effect :=
    if fullModeOf flags && ((processedBefore + 1) % 10 == 0) then
      [Effect.storeState ids runDate (decide (totalMembers ≤ ids.length))]
    else []
  let row : ProcessedRow :=
    { name := m.name, id := m.id, mtype := memberTypeString m, invoiceId := invId,
      invoiceAmount := pr.totalPrice, pdfLink := pdfLink, paymentLink := payLink }
  { processed := [row], failed := [],
    newIds := if fullModeOf flags then [m.id] else [],
    trace := tr1 ++ duesTr ++ stateTr }

/-- Steps E–G of the per-member pipeline: payment link (a dummy link in
dry/PDF-test runs), PDF rendering (a failure is caught as a per-member
failure), and the S3 PDF store (a placeholder link, with no write, in dry
runs).  `tr0` is the trace accumulated by the earlier steps. -/
def stepRest (flags : RunFlags) (env : HandlerEnv) (totalMembers : Nat)
    (stateIds : List String) (processedBefore : Nat) (m : Member)
    (pr : PriceResult) (invId : String) (tr0 : List Effect) : MemberDelta :=
  let payLink : Option String :=
    if !flags.dryRun && flags.pdfTestLimit == 0 then env.paymentLink m.id
    else some "https://app.hubspot.com/contacts/12345/objects/2-18/invoice/67890"
  match env.pdfRender m.id with
  | .error msg =>
    { processed := [], failed := [{ name := fallbackName m.name, id := m.id, reason := msg }],
      newIds := [], trace := tr0 }
  | .ok _ =>
    let key := env.pdfKey m.id
    if flags.dryRun then
      stepFinish flags env.runDate totalMembers stateIds processedBefore m pr invId
        ("s3://fake-bucket-for-dry-run/" ++ key) payLink tr0
    else
      match env.storePdfResult m.id with
      | .error msg =>
        { processed := [],
          failed := [{ name := fallbackName m.name, id := m.id, reason := msg }],
          newIds := [], trace := tr0 ++ [Effect.storePdf key] }
      | .ok link =>
        stepFinish flags env.runDate totalMembers stateIds processedBefore m pr invId
          link payLink (tr0 ++ [Effect.storePdf key])

/-- One iteration of the member loop of `exports.handler` (steps A–I):
contact resolution, the duplicate check through `findExistingOpenInvoice`,
the pricing `switch`, invoice creation (skipped with a fake id in dry-run
and PDF-test modes), then `stepRest`.  Every thrown error is caught and
recorded as a `failedInvoices` row without aborting the batch. -/
def stepMember (cfg : PricingConfig) (flags : RunFlags) (env : HandlerEnv)
    (totalMembers : Nat) (stateIds : List String) (processedBefore : Nat)
    (m : Member) : MemberDelta :=
  let contactId? : Option String :=
    if m.isCompany then env.primaryContact m.id else some m.id
  match contactId? with
  | none =>
    { processed := [],
      failed := [{ name := fallbackName m.name, id := m.id,
                   reason := "No primary contact found for company" }],
      newIds := [], trace := [] }
  | some contactId =>
    match findExistingOpenInvoice none (some contactId) (env.invoiceSearch contactId) with
    | some invId =>
      { processed := [],
        failed := [{ name := m.name, id := m.id, reason := "Open invoice " ++ invId }],
        newIds := [], trace := [] }
    | none =>
      match resolvePrice cfg m.isCompany m.props with
      | .error msg =>
        { processed := [],
          failed := [{ name := fallbackName m.name, id := m.id, reason := msg }],
          newIds := [], trace := [] }
      | .ok pr =>
        if flags.dryRun || flags.pdfTestLimit != 0 then
          stepRest flags env totalMembers stateIds processedBefore m pr
            "fake-invoice-id-test-run" []
        else
          match env.createResult m.id with
          | .error msg =>
            { processed := [],
              failed := [{ name := fallbackName m.name, id := m.id, reason := msg }],
              newIds := [],
              trace := [Effect.createInvoice m.id contactId pr.totalPrice flags.keepDraft] }
          | .ok invId =>
            stepRest flags env totalMembers stateIds processedBefore m pr invId
              [Effect.createInvoice m.id contactId pr.totalPrice flags.keepDraft]

/-- The member loop: before each member the remaining-time budget is
checked and the loop breaks when fewer than 30 seconds remain. -/
def processLoop (cfg : PricingConfig) (flags : RunFlags) (env : HandlerEnv)
    (totalMembers : Nat) : Nat → List Member → RunAcc → RunAcc
  | _, [], acc => acc
  | i, m :: rest, acc =>
    if env.timeOk i then
      let d := stepMember cfg flags env totalMembers acc.stateIds acc.processed.length m
      processLoop cfg flags env totalMembers (i + 1) rest
        { processed := acc.processed ++ d.processed,
          failed := acc.failed ++ d.failed,
          stateIds := acc.stateIds ++ d.newIds,
          trace := acc.trace ++ d.trace }
    else acc

/-- `allMembers` after the `pdf_test_limit` and `full_test_limit` slices. -/
def slicedMembers (flags : RunFlags) (env : HandlerEnv) : List Member :=
  let all1 :=
    if flags.pdfTestLimit != 0 && decide (flags.pdfTestLimit < env.members.length) then
      env.members.take flags.pdfTestLimit
    else env.members
  if flags.fullTestLimit != 0 && decide (flags.fullTestLimit < all1.length) then
    all1.take flags.fullTestLimit
  else all1

/-- `processedMemberIds` as initialized before the loop: the persisted run
state of the current run date, but only in full mode and when the state was
not just cleared. -/
def initialProcessedIds (flags : RunFlags) (env : HandlerEnv) : List String :=
  if fullModeOf flags && !flags.clearState then env.loadedState else []

/-- The `clearProcessingState` write made before the loop when a full run
asks for `clear_state`. -/
def initialTrace (flags : RunFlags) (env : HandlerEnv) : List Effect :=
  if fullModeOf flags && flags.clearState then [Effect.clearState env.runDate] else []

/-- `membersToProcess`: `allMembers` with every member whose id is already
in `processedMemberIds` filtered out. -/
def membersToProcess (flags : RunFlags) (env : HandlerEnv) : List Member :=
  (slicedMembers flags env).filter
    (fun m => !((initialProcessedIds flags env).contains m.id))

/-- `exports.handler` from `src/index.js` (the state-tracking variant):
data retrieval and slicing, state management and the already-processed
filter, the member loop, report generation and storage (plus the optional
report email), and the final state update when a full run processed at
least one member. -/
def runHandler (cfg : PricingConfig) (flags : RunFlags) (env : HandlerEnv) : RunResult :=
  let allMembers := slicedMembers flags env
  if allMembers.isEmpty then
    { trace := [], statusCode := 200, message := "No memberships to process.",
      processedCount := 0, failedCount := 0, processedRows := [], failedRows := [] }
  else
    let toProcess := membersToProcess flags env
    if toProcess.isEmpty then
      { trace := initialTrace flags env ++
          (if fullModeOf flags then
            [Effect.storeState (initialProcessedIds flags env) env.runDate true]
          else []),
        statusCode := 200, message := "All members already processed.",
        processedCount := 0, failedCount := 0, processedRows := [], failedRows := [] }
    else
      let acc := processLoop cfg flags env allMembers.length 0 toProcess
        { processed := [], failed := [], stateIds := initialProcessedIds flags env,
          trace := initialTrace flags env }
      let tr1 := acc.trace ++ [Effect.storeReport] ++
        (if cfg.enableReportEmail then [Effect.emailReport] else [])
      let tr2 := tr1 ++
        (if fullModeOf flags && decide (0 < acc.processed.length) then
          [Effect.storeState acc.stateIds env.runDate
            (decide (allMembers.length ≤ acc.stateIds.length))]
        else [])
      { trace := tr2, statusCode := 200, message := "HubSpot Invoicing complete.",
        processedCount := acc.processed.length, failedCount := acc.failed.length,
        processedRows := acc.processed, failedRows := acc.failed }

/-! Theorems about the embedded program. -/

/-- A successful association-list lookup exhibits a member of the list. -/
theorem lookupMem {α β : Type} [BEq α] [LawfulBEq α] {k : α} {v : β} :
    ∀ {l : List (α × β)}, List.lookup k l = some v → (k, v) ∈ l := by
  intro l
  induction l with
  | nil => intro h; simp [List.lookup] at h
  | cons p t ih =>
    intro h
    obtain ⟨k1, v1⟩ := p
    rw [List.lookup] at h
    cases hk : (k == k1) with
    | true =>
      rw [hk] at h
      simp only [Option.some.injEq] at h
      exact (eq_of_beq hk) ▸ h ▸ List.mem_cons_self _ _
    | false =>
      rw [hk] at h
      exact List.mem_cons_of_mem _ (ih h)

/-- No key of the state table is a 2-letter string (every key is a full
name), so the 2-letter early-return branch of `normalizeStateName` never
fires. -/
theorem stateMapKeysNotTwo : ∀ p ∈ stateMap, ¬ p.1.length = 2 := by decide

/-- When the home territory normalizes to a non-empty string,
`countTerritoriesExcludingHomeState` counts exactly the list entries whose
normalized form differs from the normalized home territory. -/
theorem count_eq_filter (s home : String) (h : normalizeStateName home ≠ "") :
    countTerritoriesExcludingHomeState s home =
      ((splitEntries s).filter
        (fun t => normalizeStateName t != normalizeStateName home)).length := by
  by_cases hs : s = ""
  · subst hs
    rw [show splitEntries "" = [] from rfl]
    rfl
  · simp only [countTerritoriesExcludingHomeState, if_neg hs, if_neg h]

/-- C1: for every Distributor entity the total equals
`baseFee + billableTerritoryCount * perTerritoryFee`, and — whenever the
home territory is any spelling that normalizes to a non-empty code (full
name or 2-letter abbreviation, any case, surrounding whitespace) — the
billable count counts exactly the entries of the three territory lists
whose normalized form differs from the normalized home territory, so every
entry spelling the home territory is excluded. -/
theorem distributor_total_and_home_exclusion
    (baseFee perTerritoryCharge : ℚ) (props : MemberProps)
    (h : normalizeStateName props.state ≠ "") :
    (calculateDistributorPrice baseFee perTerritoryCharge props).totalPrice =
        baseFee + (distributorBillableCount props : ℚ) * perTerritoryCharge
    ∧ distributorBillableCount props =
        ((splitEntries props.usStates ++ splitEntries props.canProvinces ++
            splitEntries props.nonNATerritories).filter
          (fun t => normalizeStateName t != normalizeStateName props.state)).length := by
  constructor
  · rfl
  · rw [List.filter_append, List.filter_append, List.length_append, List.length_append,
      distributorBillableCount,
      count_eq_filter _ _ h, count_eq_filter _ _ h, count_eq_filter _ _ h]

/-- The Distributor entity of end-to-end scenario A: home state
`California`, territory list `California;Nevada;Arizona`. -/
def scenarioAProps : MemberProps :=
  { membershipType := some "Distributor", usStates := "California;Nevada;Arizona",
    canProvinces := "", nonNATerritories := "", state := "California",
    manufacturerLevel := none }

/-- Witness for C1 at scenario A: billable count 2, total `929 + 2 * 70`. -/
theorem distributor_total_and_home_exclusion_witness :
    ((calculateDistributorPrice 929 70 scenarioAProps).totalPrice =
        929 + (distributorBillableCount scenarioAProps : ℚ) * 70
      ∧ distributorBillableCount scenarioAProps =
        ((splitEntries scenarioAProps.usStates ++ splitEntries scenarioAProps.canProvinces ++
            splitEntries scenarioAProps.nonNATerritories).filter
          (fun t => normalizeStateName t != normalizeStateName scenarioAProps.state)).length)
    ∧ distributorBillableCount scenarioAProps = 2
    ∧ (calculateDistributorPrice 929 70 scenarioAProps).totalPrice = 1069 :=
  ⟨distributor_total_and_home_exclusion 929 70 scenarioAProps (by decide),
   by decide, by
    rw [(distributor_total_and_home_exclusion 929 70 scenarioAProps (by decide)).1,
      show distributorBillableCount scenarioAProps = 2 from by decide]
    norm_num⟩

/-- Modelled from the spec (sections 4.1 and 4.2): "Territory count =
normalized union of three territory lists (domestic states, provinces,
non-domestic territories) minus the entity's home territory" — the entries
of the three lists are normalized, duplicates contribute once, and the
normalized home territory is removed. -/
def specUnionBillableCount (props : MemberProps) : Nat :=
  ((((splitEntries props.usStates ++ splitEntries props.canProvinces ++
        splitEntries props.nonNATerritories).map normalizeStateName).dedup).filter
    (fun t => t != normalizeStateName props.state)).length

/-- A Distributor whose US-state list repeats `CA` with home state `NY`. -/
def dupTerritoryProps : MemberProps :=
  { membershipType := some "Distributor", usStates := "CA;CA", canProvinces := "",
    nonNATerritories := "", state := "NY", manufacturerLevel := none }

/-- C4 counterexample: the code counts a duplicated territory once per
occurrence (2 for `CA;CA`), not once as the size of the normalized union
(1), so the claimed equality with the union count is false. -/
theorem billable_count_not_union : distributorBillableCount dupTerritoryProps = 2
    ∧ specUnionBillableCount dupTerritoryProps = 1
    ∧ distributorBillableCount dupTerritoryProps ≠ specUnionBillableCount dupTerritoryProps := by
  decide

/-- C4 (amended): for every Distributor entity whose home territory
normalizes to a non-empty code, the billable territory count equals the
number of entries across the three territory lists — counted with
multiplicity, an entry occurring in several lists or several times in one
list contributing once per occurrence — whose normalized form differs from
the normalized home territory. -/
theorem billable_count_eq_multiset_count (props : MemberProps)
    (h : normalizeStateName props.state ≠ "") :
    distributorBillableCount props =
      ((splitEntries props.usStates ++ splitEntries props.canProvinces ++
          splitEntries props.nonNATerritories).filter
        (fun t => normalizeStateName t != normalizeStateName props.state)).length := by
  rw [List.filter_append, List.filter_append, List.length_append, List.length_append,
    distributorBillableCount,
    count_eq_filter _ _ h, count_eq_filter _ _ h, count_eq_filter _ _ h]

/-- A Distributor claiming `TX;OK` and `ONTARIO;Texas` with home `Texas`. -/
def crossListProps : MemberProps :=
  { membershipType := some "Distributor", usStates := "TX;OK",
    canProvinces := "ONTARIO;Texas", nonNATerritories := "", state := "Texas",
    manufacturerLevel := none }

/-- Witness for the amended C4: both spellings of the home state `Texas`
are excluded and the remaining two entries are billed. -/
theorem billable_count_eq_multiset_count_witness :
    distributorBillableCount crossListProps =
      ((splitEntries crossListProps.usStates ++ splitEntries crossListProps.canProvinces ++
          splitEntries crossListProps.nonNATerritories).filter
        (fun t => normalizeStateName t != normalizeStateName crossListProps.state)).length
    ∧ distributorBillableCount crossListProps = 2 :=
  ⟨billable_count_eq_multiset_count crossListProps (by decide), by decide⟩

/-- C9 counterexample: the unrecognized string `foo` is not returned
identical to the input — `normalizeStateName` returns it trimmed and
upper-cased. -/
theorem normalize_not_identity :
    normalizeStateName "foo" ≠ "foo" ∧ normalizeStateName "foo" = "FOO" := by
  decide

/-- C9 (amended): `normalizeStateName` maps any spelling whose trimmed
upper-cased form is a key of the static table to that key's fixed 2-letter
code, and returns every other string — including strings that are already
2-letter codes — trimmed and upper-cased rather than identical to the
input. -/
theorem normalize_amended (s : String) :
    (∀ code, List.lookup (jsToUpper (jsTrim s)) stateMap = some code →
      normalizeStateName s = code)
    ∧ (List.lookup (jsToUpper (jsTrim s)) stateMap = none →
      normalizeStateName s = jsToUpper (jsTrim s)) := by
  constructor
  · intro code h
    by_cases hs : s = ""
    · subst hs
      rw [show jsToUpper (jsTrim "") = "" from rfl] at h
      rw [show List.lookup "" stateMap = (none : Option String) from rfl] at h
      exact Option.noConfusion h
    · have hlen : ¬ (jsToUpper (jsTrim s)).length = 2 :=
        stateMapKeysNotTwo (jsToUpper (jsTrim s), code) (lookupMem h)
      simp only [normalizeStateName, if_neg hs]
      rw [if_neg ?side]
      · rw [h]; rfl
      · simp [hlen]
  · intro h
    by_cases hs : s = ""
    · subst hs; rfl
    · simp only [normalizeStateName, if_neg hs]
      rw [if_neg ?side2]
      · rw [h]; rfl
      · simp [h]

/-- Witness for the amended C9: a spelled-out name (with whitespace and
lower case) maps to its code, and an unrecognized word comes back trimmed
and upper-cased. -/
theorem normalize_amended_witness :
    normalizeStateName " california " = "CA" ∧ normalizeStateName "foo" = "FOO" :=
  ⟨(normalize_amended " california ").1 "CA" (by decide),
   (normalize_amended "foo").2 (by decide)⟩

/-- C6: a thrown network/API error in the open-invoice search is treated as
"no open invoice found" — `findExistingOpenInvoice` returns `none` instead
of propagating the error, so the failed lookup cannot block or fail the
entity. -/
theorem open_invoice_check_fails_open (companyId contactId : Option String)
    (err : String) :
    findExistingOpenInvoice companyId contactId (.error err) = none := by
  unfold findExistingOpenInvoice
  split <;> rfl

/-- A `$5,000 (…)` label is never blank: its first character is `$`. -/
theorem blank5000 (s : String) :
    (("$5,000 (" ++ s).data.all Char.isWhitespace) = false := by
  rw [String.data_append]; rfl

/-- Whatever follows the parenthesis, a `$5,000 (…)` label cleans to the
digit string `5000`: the split stops at the first `(`, the trim drops the
trailing space, and the `$` and `,` are stripped. -/
theorem levelClean5000 (s : String) :
    levelClean (("$5,000 (" ++ s).data) = ['5', '0', '0', '0'] := by
  rw [String.data_append]; rfl

/-- Every label of the form `$5,000 (anything)` parses to exactly 5000. -/
theorem parse5000 (s : String) :
    parseMembershipLevelPrice ("$5,000 (" ++ s) = some 5000 := by
  show jsParseFloatChars (levelClean (("$5,000 (" ++ s).data)) = some 5000
  rw [levelClean5000]
  simp only [jsParseFloatChars,
    show jsParseFloatParts ['5', '0', '0', '0'] = ⟨false, 5000, 0, 0, 0, true⟩ from by decide]
  norm_num

/-- The successful result for a `$5,000 (…)` label. -/
def mfr5000ResultOf (s : String) : PriceResult :=
  { totalPrice := 5000,
    lineItems :=
      [{ name := "Manufacturer Membership Fee", quantity := 1, price := 5000,
         description := "$5,000 (" ++ s, productId := getManufacturerProductId 5000 }] }

/-- C2: for a Manufacturer entity with a present, non-blank membership
level, a successful resolution returns exactly the number parsed from the
label (substring before the first parenthesis, `$` and `,` stripped); every
label of the form `$5,000 (anything)` resolves to exactly 5000; and a
missing or blank level resolves to the configured default fee — the branch
that logs a warning — instead of throwing. -/
theorem manufacturer_label_parse_and_default (defaultFee : ℚ) (props : MemberProps) :
    (∀ lbl r, props.manufacturerLevel = some lbl → isBlankLevel (some lbl) = false →
      calculateManufacturerPrice defaultFee props = .ok r →
      parseMembershipLevelPrice lbl = some r.totalPrice)
    ∧ (∀ s : String,
        calculateManufacturerPrice defaultFee
            { props with manufacturerLevel := some ("$5,000 (" ++ s) } =
          .ok (mfr5000ResultOf s)
        ∧ (mfr5000ResultOf s).totalPrice = 5000)
    ∧ (isBlankLevel props.manufacturerLevel = true →
        calculateManufacturerPrice defaultFee props = .ok (manufacturerDefaultResult defaultFee)
        ∧ (manufacturerDefaultResult defaultFee).totalPrice = defaultFee) := by
  refine ⟨?parse, ?label5000, ?defaultCase⟩
  · intro lbl r hl hb hok
    have hb' : (lbl.data.all Char.isWhitespace) = false := hb
    rw [calculateManufacturerPrice, hl] at hok
    simp only [hb', Bool.false_eq_true, if_false] at hok
    split at hok
    · exact absurd hok (by simp)
    · next p hp =>
      split at hok
      · exact absurd hok (by simp)
      · obtain ⟨rfl⟩ := Except.ok.inj hok
        rw [hp]
  · intro s
    refine ⟨?_, rfl⟩
    show calculateManufacturerPrice defaultFee _ = _
    rw [calculateManufacturerPrice]
    simp only [blank5000 s, Bool.false_eq_true, if_false, parse5000 s]
    norm_num [mfr5000ResultOf]
  · intro hb
    refine ⟨?_, rfl⟩
    cases hml : props.manufacturerLevel with
    | none => rw [calculateManufacturerPrice, hml]
    | some lvl =>
      rw [hml] at hb
      have hb' : (lvl.data.all Char.isWhitespace) = true := hb
      rw [calculateManufacturerPrice, hml]
      simp only [hb', if_true]

/-- A Manufacturer entity carrying the label `$5,000 (anything)`. -/
def mfr5000Props : MemberProps :=
  { membershipType := some "Manufacturer", usStates := "", canProvinces := "",
    nonNATerritories := "", state := "", manufacturerLevel := some ("$5,000 (" ++ "anything)") }

/-- A Manufacturer entity with no membership-level attribute. -/
def mfrMissingProps : MemberProps :=
  { membershipType := some "Manufacturer", usStates := "", canProvinces := "",
    nonNATerritories := "", state := "", manufacturerLevel := none }

/-- Witness for C2: the `$5,000 (anything)` label resolves to exactly 5000
and a missing label resolves to the configured default fee of 1500. -/
theorem manufacturer_label_parse_and_default_witness :
    parseMembershipLevelPrice ("$5,000 (" ++ "anything)") =
        some ((mfr5000ResultOf "anything)").totalPrice)
    ∧ (mfr5000ResultOf "anything)").totalPrice = 5000
    ∧ calculateManufacturerPrice 1500 mfrMissingProps = .ok (manufacturerDefaultResult 1500)
    ∧ (manufacturerDefaultResult 1500).totalPrice = 1500 := by
  refine ⟨?_, ?_, ?_, ?_⟩
  · exact (manufacturer_label_parse_and_default 1500 mfr5000Props).1 _ _ rfl (by decide)
      ((manufacturer_label_parse_and_default 1500 mfr5000Props).2.1 "anything)").1
  · exact ((manufacturer_label_parse_and_default 1500 mfr5000Props).2.1 "anything)").2
  · exact ((manufacturer_label_parse_and_default 1500 mfrMissingProps).2.2 rfl).1
  · exact ((manufacturer_label_parse_and_default 1500 mfrMissingProps).2.2 rfl).2

/-- The Distributor result satisfies the line-item sum invariant. -/
theorem distributor_sum_invariant (baseFee per : ℚ) (props : MemberProps) :
    (calculateDistributorPrice baseFee per props).totalPrice =
      sumLineItems (calculateDistributorPrice baseFee per props).lineItems := by
  unfold calculateDistributorPrice
  by_cases hn : 0 < distributorBillableCount props
  · simp only [hn, if_true]
    simp [sumLineItems]
    try ring
  · have h0 : distributorBillableCount props = 0 := Nat.eq_zero_of_not_pos hn
    simp only [hn, if_false, h0]
    simp [sumLineItems]

/-- The Manufacturer result satisfies the line-item sum invariant. -/
theorem manufacturer_sum_invariant (defaultFee : ℚ) (props : MemberProps)
    (r : PriceResult) (h : calculateManufacturerPrice defaultFee props = .ok r) :
    r.totalPrice = sumLineItems r.lineItems := by
  rw [calculateManufacturerPrice] at h
  split at h
  · obtain ⟨rfl⟩ := Except.ok.inj h
    simp [manufacturerDefaultResult, sumLineItems]
  · split at h
    · obtain ⟨rfl⟩ := Except.ok.inj h
      simp [manufacturerDefaultResult, sumLineItems]
    · split at h
      · exact absurd h (by simp)
      · split at h
        · exact absurd h (by simp)
        · obtain ⟨rfl⟩ := Except.ok.inj h
          simp [sumLineItems]

/-- C3: whenever the pricing resolver succeeds — for any of the four
category variants — the returned result satisfies
`totalAmount = sum(quantity * unitPrice)` over its line items. -/
theorem price_total_eq_line_item_sum (cfg : PricingConfig) (isCompany : Bool)
    (props : MemberProps) (r : PriceResult)
    (h : resolvePrice cfg isCompany props = .ok r) :
    r.totalPrice = sumLineItems r.lineItems := by
  rw [resolvePrice] at h
  split at h
  · exact absurd h (by simp)
  · split at h
    · obtain ⟨rfl⟩ := Except.ok.inj h
      exact distributor_sum_invariant _ _ _
    · split at h
      · exact manufacturer_sum_invariant _ _ _ h
      · split at h
        · rw [calculateServiceProviderPrice.eq_def] at h
          split at h
          · exact absurd h (by simp)
          · obtain ⟨rfl⟩ := Except.ok.inj h
            simp [sumLineItems]
        · split at h
          · obtain ⟨rfl⟩ := Except.ok.inj h
            simp [calculateIndividualPrice, sumLineItems]
          · exact absurd h (by simp)

/-- The pricing configuration with all the environment defaults of
`src/config/index.js`. -/
def defaultConfig : PricingConfig :=
  { distributorBaseFee := 929, distributorPerTerritoryFee := 70,
    manufacturerDefaultFee := 1500, serviceProviderFlatFee := some 1250,
    individualFee := 349, typeDistributor := "Distributor",
    typeManufacturer := "Manufacturer", typeServiceProvider := "Service Provider",
    enableReportEmail := false }

/-- Witness for C3 at an Individual entity with the default fee. -/
theorem price_total_eq_line_item_sum_witness :
    (calculateIndividualPrice 349).totalPrice =
      sumLineItems (calculateIndividualPrice 349).lineItems :=
  price_total_eq_line_item_sum defaultConfig false mfrMissingProps
    (calculateIndividualPrice 349) rfl

/-- The invoice configuration of a production deployment: environment
defaults plus deployed association type ids. -/
def deployedInvoiceConfig : InvoiceConfig :=
  { invoiceObjectTypeId := "invoice", assocInvoiceToContact := some 177,
    assocInvoiceToCompany := some 179, assocInvoiceToLineItem := 3,
    currency := "USD", pdfLinkProperty := "printable_invoice_url" }

/-- The `invoiceData` assembled by a full run with `keep_draft = true` for a
Distributor with its base-fee line item. -/
def keepDraftData : InvoiceData :=
  { contactId := some "c1", companyId := some "co1", invoiceAmount := 929,
    lineItems :=
      [{ name := "Distributor Membership Base Fee", quantity := 1, price := 929,
         description := "Annual base fee for Distributor Membership.",
         productId := some "2463768667" }],
    pdfLink := "", keepDraft := true }

/-- The CRM calls `createInvoice` makes for `keepDraftData`. -/
def keepDraftCalls : List CrmCall :=
  ((createInvoice deployedInvoiceConfig keepDraftData "inv1" (fun _ => "li1")
      "2026-11-11").toOption).getD []

/-- C7 (code bug): on an invoice created with `keepDraft = true`,
`createInvoice` still issues the step-3 update that sets
`hs_invoice_status` to `open` — the `keepDraft` field of the invoice data
is never consulted, so the invoice is transitioned to payable status. -/
theorem keep_draft_still_opens_invoice :
    keepDraftData.keepDraft = true
    ∧ createInvoice deployedInvoiceConfig keepDraftData "inv1" (fun _ => "li1")
        "2026-11-11" = .ok keepDraftCalls
    ∧ CrmCall.updateObject "invoice" "inv1"
        [("hs_due_date", "2026-11-11"), ("hs_invoice_status", "open")] ∈ keepDraftCalls := by
  refine ⟨rfl, rfl, ?_⟩
  decide

/-- A trigger event with `dry_run = true` and no other flag. -/
def dryRunFlags : RunFlags :=
  { dryRun := true, pdfTestLimit := 0, fullTestLimit := 0, keepDraft := false,
    clearState := false }

/-- An expiring Individual membership. -/
def janeMember : Member :=
  { id := "i1", isCompany := false, name := "Jane Doe", companyId := none,
    props := { membershipType := none, usStates := "", canProvinces := "",
               nonNATerritories := "", state := "", manufacturerLevel := none } }

/-- A run environment with one Individual member, no persisted state, no
open invoice, and every remote call succeeding. -/
def dryRunEnv : HandlerEnv :=
  { members := [janeMember], loadedState := [], runDate := "2026-10-12",
    primaryContact := fun _ => none, invoiceSearch := fun _ => .ok [],
    createResult := fun _ => .ok "inv-1", paymentLink := fun _ => some "link",
    pdfRender := fun _ => .ok (), storePdfResult := fun _ => .ok "s3://bucket/key.pdf",
    pdfKey := fun i => "invoices/2026/10/Individual-" ++ i ++ ".pdf",
    timeOk := fun _ => true }

/-- C8 (code bug): in a dry run the handler makes no CRM or state write
and the PDF link is a placeholder, but its effect trace is exactly
`[storeReport]` — the run-summary CSV is still written to object storage by
`generateAndStoreReport`, which has no dry-run check — while the summary
still reports the computed amount (one processed row, fee 349). -/
theorem dry_run_still_stores_report :
    dryRunFlags.dryRun = true
    ∧ (runHandler defaultConfig dryRunFlags dryRunEnv).trace = [Effect.storeReport]
    ∧ (runHandler defaultConfig dryRunFlags dryRunEnv).processedCount = 1
    ∧ (runHandler defaultConfig dryRunFlags dryRunEnv).processedRows =
        [{ name := "Jane Doe", id := "i1", mtype := "Individual",
           invoiceId := "fake-invoice-id-test-run", invoiceAmount := 349,
           pdfLink := "s3://fake-bucket-for-dry-run/invoices/2026/10/Individual-i1.pdf",
           paymentLink :=
             some "https://app.hubspot.com/contacts/12345/objects/2-18/invoice/67890" }] := by
  refine ⟨rfl, ?_, rfl, ?_⟩ <;> decide

/-- Steps H–I (`stepFinish`) only append dues and state writes: any
invoice-creation effect in the resulting trace was already in `tr1`. -/
theorem stepFinish_create {flags : RunFlags} {runDate : String} {tot : Nat}
    {sids : List String} {cnt : Nat} {m : Member} {pr : PriceResult}
    {invId pdfLink : String} {payLink : Option String} {tr1 : List Effect}
    {mid cid : String} {amt : ℚ} {kd : Bool}
    (h : Effect.createInvoice mid cid amt kd ∈
      (stepFinish flags runDate tot sids cnt m pr invId pdfLink payLink tr1).trace) :
    Effect.createInvoice mid cid amt kd ∈ tr1 := by
  simp only [stepFinish, List.mem_append] at h
  rcases h with (h | h) | h
  · exact h
  · split at h <;> simp_all
  · split at h <;> simp_all

/-- Steps E–G (`stepRest`) only append PDF-store, dues, and state writes:
any invoice-creation effect in the resulting trace was already in `tr0`. -/
theorem stepRest_create {flags : RunFlags} {env : HandlerEnv} {tot : Nat}
    {sids : List String} {cnt : Nat} {m : Member} {pr : PriceResult}
    {invId : String} {tr0 : List Effect} {mid cid : String} {amt : ℚ} {kd : Bool}
    (h : Effect.createInvoice mid cid amt kd ∈
      (stepRest flags env tot sids cnt m pr invId tr0).trace) :
    Effect.createInvoice mid cid amt kd ∈ tr0 := by
  simp only [stepRest] at h
  split at h
  · exact h
  · split at h
    · exact stepFinish_create h
    · split at h
      · simp only [List.mem_append] at h
        rcases h with h | h
        · exact h
        · simp_all
      · have h2 := stepFinish_create h
        simp only [List.mem_append] at h2
        rcases h2 with h2 | h2
        · exact h2
        · simp_all

/-- Every invoice-creation effect emitted while processing a member is
tagged with that member's id. -/
theorem stepMember_create {cfg : PricingConfig} {flags : RunFlags} {env : HandlerEnv}
    {tot : Nat} {sids : List String} {cnt : Nat} {m : Member}
    {mid cid : String} {amt : ℚ} {kd : Bool}
    (hne : mid ≠ m.id) :
    Effect.createInvoice mid cid amt kd ∉
      (stepMember cfg flags env tot sids cnt m).trace := by
  intro h
  simp only [stepMember] at h
  split at h
  · simp at h
  · split at h
    · simp at h
    · split at h
      · simp at h
      · split at h
        · exact absurd (stepRest_create h) (by simp)
        · split at h
          · simp only [List.mem_singleton] at h
            exact hne (congrArg (fun e => match e with
              | Effect.createInvoice a _ _ _ => a
              | _ => "") h)
          · have h2 := stepRest_create h
            simp only [List.mem_singleton] at h2
            exact hne (congrArg (fun e => match e with
              | Effect.createInvoice a _ _ _ => a
              | _ => "") h2)

/-- Through the member loop, no invoice-creation effect appears for an id
that belongs to none of the remaining members. -/
theorem processLoop_create {cfg : PricingConfig} {flags : RunFlags} {env : HandlerEnv}
    {tot : Nat} {mid cid : String} {amt : ℚ} {kd : Bool} :
    ∀ (l : List Member) (i : Nat) (acc : RunAcc),
      (∀ m' ∈ l, mid ≠ m'.id) →
      Effect.createInvoice mid cid amt kd ∉ acc.trace →
      Effect.createInvoice mid cid amt kd ∉
        (processLoop cfg flags env tot i l acc).trace := by
  intro l
  induction l with
  | nil => intro i acc _ hacc; simpa [processLoop] using hacc
  | cons m rest ih =>
    intro i acc hl hacc
    rw [processLoop]
    split
    · apply ih
      · intro m' hm'; exact hl m' (List.mem_cons_of_mem _ hm')
      · intro h
        simp only [List.mem_append] at h
        rcases h with h | h
        · exact hacc h
        · exact stepMember_create (hl m (List.mem_cons_self _ _)) h
    · exact hacc

/-- C5: in a full run (no dry-run, no test limit, state not cleared), an
entity whose id is already in the persisted `processedIds` of the current
run date is filtered out before processing, and the whole run makes zero
invoice-creation calls for that entity. -/
theorem already_processed_never_reinvoiced (cfg : PricingConfig) (flags : RunFlags)
    (env : HandlerEnv) (mid : String)
    (hdry : flags.dryRun = false) (hpdf : flags.pdfTestLimit = 0)
    (hfull : flags.fullTestLimit = 0) (hclear : flags.clearState = false)
    (hmem : mid ∈ env.loadedState) :
    ∀ cid amt kd, Effect.createInvoice mid cid amt kd ∉ (runHandler cfg flags env).trace := by
  intro cid amt kd h
  have hfm : fullModeOf flags = true := by simp [fullModeOf, hdry, hpdf, hfull]
  have hids : initialProcessedIds flags env = env.loadedState := by
    simp [initialProcessedIds, hfm, hclear]
  have htr0 : initialTrace flags env = [] := by simp [initialTrace, hclear]
  have hmp : ∀ m' ∈ membersToProcess flags env, mid ≠ m'.id := by
    intro m' hm' heq
    have hpred := List.of_mem_filter hm'
    rw [hids] at hpred
    simp only [Bool.not_eq_true'] at hpred
    rw [← heq] at hpred
    have : mid ∈ env.loadedState → env.loadedState.contains mid = true := by
      intro hx
      simpa [List.contains] using List.elem_iff.mpr hx
    rw [this hmem] at hpred
    exact Bool.noConfusion hpred
  rw [runHandler] at h
  by_cases hA : (slicedMembers flags env).isEmpty = true
  · rw [if_pos hA] at h
    simp at h
  · rw [if_neg hA] at h
    by_cases hB : (membersToProcess flags env).isEmpty = true
    · rw [if_pos hB] at h
      rw [htr0] at h
      rw [if_pos hfm] at h
      simp at h
    · rw [if_neg hB] at h
      simp only [List.mem_append] at h
      rcases h with ((h | h) | h) | h
      · exact processLoop_create (membersToProcess flags env) 0 _ hmp
          (by rw [htr0]; simp) h
      · simp at h
      · split at h <;> simp at h
      · split at h <;> simp at h

/-- A full-run environment whose persisted state already contains the only
member's id. -/
def resumedEnv : HandlerEnv :=
  { members := [janeMember], loadedState := ["i1"], runDate := "2026-10-12",
    primaryContact := fun _ => none, invoiceSearch := fun _ => .ok [],
    createResult := fun _ => .ok "inv-1", paymentLink := fun _ => some "link",
    pdfRender := fun _ => .ok (), storePdfResult := fun _ => .ok "s3://bucket/key.pdf",
    pdfKey := fun i => "invoices/2026/10/Individual-" ++ i ++ ".pdf",
    timeOk := fun _ => true }

/-- The flags of a plain full production run. -/
def fullRunFlags : RunFlags :=
  { dryRun := false, pdfTestLimit := 0, fullTestLimit := 0, keepDraft := false,
    clearState := false }

/-- Witness for C5: re-running on a state that already lists `i1` makes no
invoice-creation call for `i1`. -/
theorem already_processed_never_reinvoiced_witness :
    Effect.createInvoice "i1" "i1" 349 false ∉
      (runHandler defaultConfig fullRunFlags resumedEnv).trace :=
  already_processed_never_reinvoiced defaultConfig fullRunFlags resumedEnv "i1"
    rfl rfl rfl rfl (by decide) "i1" 349 false

/-- Every row `stepFinish` adds to `processedInvoices` carries the id of
the member being processed. -/
theorem stepFinish_processed {flags : RunFlags} {runDate : String} {tot : Nat}
    {sids : List String} {cnt : Nat} {m : Member} {pr : PriceResult}
    {invId pdfLink : String} {payLink : Option String} {tr1 : List Effect} :
    ∀ r ∈ (stepFinish flags runDate tot sids cnt m pr invId pdfLink payLink tr1).processed,
      r.id = m.id := by
  intro r hr
  simp only [stepFinish, List.mem_singleton] at hr
  subst hr
  rfl

/-- Every row `stepRest` adds to `processedInvoices` carries the id of the
member being processed. -/
theorem stepRest_processed {flags : RunFlags} {env : HandlerEnv} {tot : Nat}
    {sids : List String} {cnt : Nat} {m : Member} {pr : PriceResult}
    {invId : String} {tr0 : List Effect} :
    ∀ r ∈ (stepRest flags env tot sids cnt m pr invId tr0).processed, r.id = m.id := by
  intro r hr
  simp only [stepRest] at hr
  split at hr
  · simp at hr
  · split at hr
    · exact stepFinish_processed r hr
    · split at hr
      · simp at hr
      · exact stepFinish_processed r hr

/-- Every row one member's processing adds to `processedInvoices` carries
that member's id. -/
theorem stepMember_processed {cfg : PricingConfig} {flags : RunFlags} {env : HandlerEnv}
    {tot : Nat} {sids : List String} {cnt : Nat} {m : Member} :
    ∀ r ∈ (stepMember cfg flags env tot sids cnt m).processed, r.id = m.id := by
  intro r hr
  simp only [stepMember] at hr
  split at hr
  · simp at hr
  · split at hr
    · simp at hr
    · split at hr
      · simp at hr
      · split at hr
        · exact stepRest_processed r hr
        · split at hr
          · simp at hr
          · exact stepRest_processed r hr

/-- A member whose duplicate check finds an open invoice is skipped with
exactly one failure row naming that invoice, no processed row, no state-id
push, and no external write. -/
theorem stepMember_dup {cfg : PricingConfig} {flags : RunFlags} {env : HandlerEnv}
    {tot : Nat} {m : Member} {cid inv : String} {restIds : List String}
    (hc : (if m.isCompany then env.primaryContact m.id else some m.id) = some cid)
    (hd : env.invoiceSearch cid = .ok (inv :: restIds)) :
    ∀ sids cnt, stepMember cfg flags env tot sids cnt m =
      { processed := [],
        failed := [{ name := m.name, id := m.id, reason := "Open invoice " ++ inv }],
        newIds := [], trace := [] } := by
  intro sids cnt
  simp only [stepMember, hc, hd, findExistingOpenInvoice, Option.isNone, Bool.and_false,
    List.head?, Bool.false_eq_true, if_false]

/-- Rows already in `failedInvoices` stay there through the loop. -/
theorem processLoop_failed_mono {cfg : PricingConfig} {flags : RunFlags}
    {env : HandlerEnv} {tot : Nat} {r : FailedRow} :
    ∀ (l : List Member) (i : Nat) (acc : RunAcc), r ∈ acc.failed →
      r ∈ (processLoop cfg flags env tot i l acc).failed := by
  intro l
  induction l with
  | nil => intro i acc h; simpa [processLoop] using h
  | cons m rest ih =>
    intro i acc h
    rw [processLoop]
    split
    · exact ih _ _ (List.mem_append.mpr (Or.inl h))
    · exact h

/-- When the time budget never trips, a member of the remaining list whose
duplicate check finds an open invoice contributes its skip row to
`failedInvoices`. -/
theorem processLoop_dup_mem {cfg : PricingConfig} {flags : RunFlags} {env : HandlerEnv}
    {tot : Nat} {m : Member} {cid inv : String} {restIds : List String}
    (htime : ∀ i, env.timeOk i = true)
    (hc : (if m.isCompany then env.primaryContact m.id else some m.id) = some cid)
    (hd : env.invoiceSearch cid = .ok (inv :: restIds)) :
    ∀ (l : List Member) (i : Nat) (acc : RunAcc), m ∈ l →
      ({ name := m.name, id := m.id, reason := "Open invoice " ++ inv } : FailedRow) ∈
        (processLoop cfg flags env tot i l acc).failed := by
  intro l
  induction l with
  | nil => intro i acc h; simp at h
  | cons x rest ih =>
    intro i acc hm
    rw [processLoop]
    rw [if_pos (htime i)]
    rcases List.mem_cons.mp hm with heq | hm'
    · subst heq
      apply processLoop_failed_mono
      rw [stepMember_dup hc hd]
      simp [List.mem_append]
    · exact ih _ _ hm'

/-- Every row of the loop's `processedInvoices` was already in the
accumulator or was produced by processing one of the remaining members. -/
theorem processLoop_processed_src {cfg : PricingConfig} {flags : RunFlags}
    {env : HandlerEnv} {tot : Nat} {r : ProcessedRow} :
    ∀ (l : List Member) (i : Nat) (acc : RunAcc),
      r ∈ (processLoop cfg flags env tot i l acc).processed →
      r ∈ acc.processed ∨ ∃ m' ∈ l, ∃ sids cnt,
        r ∈ (stepMember cfg flags env tot sids cnt m').processed := by
  intro l
  induction l with
  | nil => intro i acc h; exact Or.inl (by simpa [processLoop] using h)
  | cons x rest ih =>
    intro i acc h
    rw [processLoop] at h
    split at h
    · rcases ih _ _ h with h2 | ⟨m', hm', sids, cnt, hr⟩
      · rcases List.mem_append.mp h2 with h3 | h3
        · exact Or.inl h3
        · exact Or.inr ⟨x, List.mem_cons_self _ _, _, _, h3⟩
      · exact Or.inr ⟨m', List.mem_cons_of_mem _ hm', sids, cnt, hr⟩
    · exact Or.inl h

/-- C10: a member skipped by the open-invoice check is recorded in the run
summary's failure list with a reason naming the existing invoice id, the
response's `failed` count is the length of that failure list (so it counts
the skip), its `processed` count is the length of the processed list, and
no processed row carries the skipped member's id — the output has no
separate skipped category. -/
theorem open_invoice_skip_in_failures (cfg : PricingConfig) (flags : RunFlags)
    (env : HandlerEnv) (m : Member) (cid inv : String) (restIds : List String)
    (htime : ∀ i, env.timeOk i = true)
    (hnodup : ((membersToProcess flags env).map Member.id).Nodup)
    (hm : m ∈ membersToProcess flags env)
    (hc : (if m.isCompany then env.primaryContact m.id else some m.id) = some cid)
    (hd : env.invoiceSearch cid = .ok (inv :: restIds)) :
    ({ name := m.name, id := m.id, reason := "Open invoice " ++ inv } : FailedRow) ∈
        (runHandler cfg flags env).failedRows
    ∧ (runHandler cfg flags env).failedCount = (runHandler cfg flags env).failedRows.length
    ∧ (runHandler cfg flags env).processedCount =
        (runHandler cfg flags env).processedRows.length
    ∧ ∀ row ∈ (runHandler cfg flags env).processedRows, row.id ≠ m.id := by
  have hA : ¬ (slicedMembers flags env).isEmpty = true := by
    rw [List.isEmpty_iff]
    exact List.ne_nil_of_mem (List.mem_of_mem_filter hm)
  have hB : ¬ (membersToProcess flags env).isEmpty = true := by
    rw [List.isEmpty_iff]
    exact List.ne_nil_of_mem hm
  rw [runHandler, if_neg hA, if_neg hB]
  refine ⟨?_, rfl, rfl, ?_⟩
  · exact processLoop_dup_mem htime hc hd _ 0 _ hm
  · intro row hrow heq
    rcases processLoop_processed_src _ 0 _ hrow with h2 | ⟨m', hm', sids, cnt, hr⟩
    · simp at h2
    · have hid : row.id = m'.id := stepMember_processed row hr
      have hmm : m' = m :=
        List.inj_on_of_nodup_map hnodup hm' hm (by rw [← hid, heq])
      subst hmm
      rw [stepMember_dup hc hd] at hr
      simp at hr

/-- An environment whose single member has an open invoice `open1` in the
CRM. -/
def dupInvoiceEnv : HandlerEnv :=
  { members := [janeMember], loadedState := [], runDate := "2026-10-12",
    primaryContact := fun _ => none, invoiceSearch := fun _ => .ok ["open1"],
    createResult := fun _ => .ok "inv-1", paymentLink := fun _ => some "link",
    pdfRender := fun _ => .ok (), storePdfResult := fun _ => .ok "s3://bucket/key.pdf",
    pdfKey := fun i => "invoices/2026/10/Individual-" ++ i ++ ".pdf",
    timeOk := fun _ => true }

/-- Witness for C10: the member with open invoice `open1` appears in the
failure list with reason `Open invoice open1` and in no processed row. -/
theorem open_invoice_skip_in_failures_witness :
    ({ name := "Jane Doe", id := "i1", reason := "Open invoice " ++ "open1" } : FailedRow) ∈
        (runHandler defaultConfig fullRunFlags dupInvoiceEnv).failedRows
    ∧ (runHandler defaultConfig fullRunFlags dupInvoiceEnv).failedCount =
        (runHandler defaultConfig fullRunFlags dupInvoiceEnv).failedRows.length
    ∧ (runHandler defaultConfig fullRunFlags dupInvoiceEnv).processedCount =
        (runHandler defaultConfig fullRunFlags dupInvoiceEnv).processedRows.length
    ∧ ∀ row ∈ (runHandler defaultConfig fullRunFlags dupInvoiceEnv).processedRows,
        row.id ≠ "i1" :=
  open_invoice_skip_in_failures defaultConfig fullRunFlags dupInvoiceEnv janeMember
    "i1" "open1" [] (fun _ => rfl) (by decide) (by decide) rfl rfl

end Invoicing
